import Mathlib

/-!
The cache-proxy: a shallow embedding of `internal/proxy/proxy.go`.

The development follows the Go package `proxy` function by function.

* Go `[]byte`, and the Go strings that reach the hash (method, URL, body), are
  sequences of bytes (`Bytes`).  Header names and values, the origin and the
  cache keys are never hashed and are Lean strings.
* Go maps (`http.Header`, `map[string]*Cache`) are association lists read with
  `GoMap.get`; `GoMap.set` is the assignment `m[k] = v`.
* The mutable receiver `*Proxy`, the `http.ResponseWriter` and the request body
  (an `io.ReadCloser`, consumed by reading) are passed and returned explicitly.
* Everything outside the package is a parameter or a small model of its
  documented contract: the HTTP client and the clock are the fields of `Env`,
  `hash.Hash` is a digest function together with the bytes written so far,
  `crypto/sha256` is SHA-256 as in FIPS 180-4.
* The mutex is not modelled: every statement below is about one call at a time.
-/

set_option maxRecDepth 100000

namespace proxy

/-! ## Bytes and strings -/

abbrev Byte := Fin 256

abbrev Bytes := List Byte

/-- The bytes of an ASCII string literal, Go's `[]byte("...")`. -/
def str (s : String) : Bytes := s.data.map fun c => Fin.ofNat c.toNat

/-! ## Go maps -/

abbrev GoMap (ν : Type) := List (String × ν)

namespace GoMap

/-- The read `v, ok := m[k]`: `some v` when `ok`. -/
def get {ν : Type} (m : GoMap ν) (k : String) : Option ν := List.lookup k m

/-- The assignment `m[k] = v`. -/
def set {ν : Type} (m : GoMap ν) (k : String) (v : ν) : GoMap ν :=
  (k, v) :: m.filter fun e => e.1 != k

/-- The statement `delete(m, k)`. -/
def del {ν : Type} (m : GoMap ν) (k : String) : GoMap ν :=
  m.filter fun e => e.1 != k

end GoMap

/-! ## net/http values -/

abbrev Header := GoMap (List String)

/-- The method `Header.Set`: the key is replaced by the single value.  Every key passed in
this package is a literal already in canonical MIME form. -/
def Header.Set (h : Header) (key value : String) : Header := GoMap.set h key [value]

/-- The method `Header.Del`. -/
def Header.Del (h : Header) (key : String) : Header := GoMap.del h key

/-- An `io.ReadCloser`: the bytes not read yet, and whether reading to the end
reports an error. -/
structure Body where
  data : Bytes
  fail : Bool
deriving DecidableEq, Repr

/-- The function `io.ReadAll`: the bytes read or the error, together with the reader left
behind, which has nothing more to deliver. -/
def ReadAll (b : Body) : Except String Bytes × Body :=
  if b.fail then (.error "read error", { data := [], fail := true })
  else (.ok b.data, { data := [], fail := false })

/-- The fields of `http.Request` this package touches.  `URL` is the text
`r.URL.String()`; `Host` is the host the request names, the address an HTTP
client sends it to. -/
structure Request where
  Method : Bytes
  URL : Bytes
  Host : String
  Header : Header
  Body : Body
deriving DecidableEq, Repr

/-- The fields of `http.Response` this package touches. -/
structure Response where
  StatusCode : Nat
  Header : Header
  Body : Body
deriving DecidableEq, Repr

/-- The constant `http.MethodGet`. -/
def MethodGet : Bytes := str "GET"

/-- The constant `http.StatusInternalServerError`. -/
def StatusInternalServerError : Nat := 500

/-- The constant `http.StatusOK`. -/
def StatusOK : Nat := 200

/-- Whether a status code is an interim one: `1xx` other than `101`. -/
def interimStatus (code : Nat) : Bool := decide (100 ≤ code ∧ code ≤ 199 ∧ code ≠ 101)

/-- Whether `WriteHeader` takes a status code at all: it panics on a code below
`100` or above `999`. -/
def validStatus (code : Nat) : Bool := decide (100 ≤ code ∧ code ≤ 999)

/-- Whether a status code is a final one: `101`, or from `200` to `999`. -/
def finalStatus (code : Nat) : Bool := validStatus code && !interimStatus code

/-- The `http.ResponseWriter` of the server. `header` is the map returned by
`Header()`. `final` is the response header once `WriteHeader` has sent it: the
status and the headers that were in the map at that moment; later changes to the
map are not sent. `interim` lists the interim (`1xx`) responses sent before it,
`body` collects the bytes given to `Write`, and `panicked` tells that
`WriteHeader` was given an invalid status code: that panic ends the handler. -/
structure ResponseWriter where
  header : Header
  interim : List (Nat × Header)
  final : Option (Nat × Header)
  body : Bytes
  panicked : Bool
deriving DecidableEq, Repr

/-- Whether the final response header was sent. -/
def ResponseWriter.wroteHeader (w : ResponseWriter) : Bool := w.final.isSome

/-- The status of the response sent to the client; `0` when none was sent. -/
def ResponseWriter.status (w : ResponseWriter) : Nat :=
  match w.final with
  | some (code, _) => code
  | none => 0

/-- The headers of the response sent to the client; none when nothing was sent. -/
def ResponseWriter.sent (w : ResponseWriter) : Header :=
  match w.final with
  | some (_, h) => h
  | none => []

/-- The writer the server hands to a handler: nothing set, nothing sent. -/
def ResponseWriter.fresh : ResponseWriter :=
  { header := [], interim := [], final := none, body := [], panicked := false }

/-- The call `w.WriteHeader(code)`: a call after the final header was sent is
ignored; an invalid code panics and nothing is sent; an interim code sends an
interim response with the headers of the map and leaves the final header to be
written; any other code sends the final header. -/
def ResponseWriter.WriteHeader (w : ResponseWriter) (code : Nat) : ResponseWriter :=
  if w.wroteHeader then w
  else if !validStatus code then { w with panicked := true }
  else if interimStatus code then { w with interim := w.interim ++ [(code, w.header)] }
  else { w with final := some (code, w.header) }

/-- The call `w.Write(b)`: calls `WriteHeader(http.StatusOK)` first when no header was
written yet. -/
def ResponseWriter.Write (w : ResponseWriter) (b : Bytes) : ResponseWriter :=
  let w1 := if w.wroteHeader then w else w.WriteHeader StatusOK
  { w1 with body := w1.body ++ b }

/-- The function `http.Error(w, msg, code)`: it deletes `Content-Length`, sets the
content type and `nosniff`, writes the header with `code` and, unless that
panicked, the message on a line. -/
def Error (w : ResponseWriter) (msg : String) (code : Nat) : ResponseWriter :=
  let h := w.header
  let h := h.Del "Content-Length"
  let h := h.Set "Content-Type" "text/plain; charset=utf-8"
  let h := h.Set "X-Content-Type-Options" "nosniff"
  let w := { w with header := h }
  let w := w.WriteHeader code
  if w.panicked then w else w.Write (str msg ++ str "\n")

/-! ## crypto/sha256, encoding/hex, hash.Hash -/

namespace sha256

def K : List Nat := [
  0x428a2f98, 0x71374491, 0xb5c0fbcf, 0xe9b5dba5, 0x3956c25b, 0x59f111f1, 0x923f82a4, 0xab1c5ed5,
  0xd807aa98, 0x12835b01, 0x243185be, 0x550c7dc3, 0x72be5d74, 0x80deb1fe, 0x9bdc06a7, 0xc19bf174,
  0xe49b69c1, 0xefbe4786, 0x0fc19dc6, 0x240ca1cc, 0x2de92c6f, 0x4a7484aa, 0x5cb0a9dc, 0x76f988da,
  0x983e5152, 0xa831c66d, 0xb00327c8, 0xbf597fc7, 0xc6e00bf3, 0xd5a79147, 0x06ca6351, 0x14292967,
  0x27b70a85, 0x2e1b2138, 0x4d2c6dfc, 0x53380d13, 0x650a7354, 0x766a0abb, 0x81c2c92e, 0x92722c85,
  0xa2bfe8a1, 0xa81a664b, 0xc24b8b70, 0xc76c51a3, 0xd192e819, 0xd6990624, 0xf40e3585, 0x106aa070,
  0x19a4c116, 0x1e376c08, 0x2748774c, 0x34b0bcb5, 0x391c0cb3, 0x4ed8aa4a, 0x5b9cca4f, 0x682e6ff3,
  0x748f82ee, 0x78a5636f, 0x84c87814, 0x8cc70208, 0x90befffa, 0xa4506ceb, 0xbef9a3f7, 0xc67178f2]

/-- Rotation of a 32-bit word to the right. -/
def rotr (x n : Nat) : Nat := ((x >>> n) ||| (x <<< (32 - n))) % 2 ^ 32

/-- The message followed by the bit `1`, zeros, and its length in bits on eight
bytes: a whole number of 64-byte blocks. -/
def pad (msg : List Nat) : List Nat :=
  let len := msg.length
  msg ++ [0x80] ++ List.replicate ((119 - len % 64) % 64) 0 ++
    (List.range 8).map fun i => ((8 * len) >>> (8 * (7 - i))) % 256

/-- Big-endian value of a run of bytes. -/
def word (bs : List Nat) : Nat := bs.foldl (fun acc b => acc * 256 + b) 0

/-- The first `n` 32-bit words of a run of bytes. -/
def words : Nat → List Nat → List Nat
  | 0, _ => []
  | n + 1, bs => word (bs.take 4) :: words n (bs.drop 4)

/-- The message schedule, extended by `n` more words. -/
def schedule : Nat → List Nat → List Nat
  | 0, w => w
  | n + 1, w =>
    let t := w.length
    let w15 := w.getD (t - 15) 0
    let w2 := w.getD (t - 2) 0
    let s0 := rotr w15 7 ^^^ rotr w15 18 ^^^ (w15 >>> 3)
    let s1 := rotr w2 17 ^^^ rotr w2 19 ^^^ (w2 >>> 10)
    schedule n (w ++ [(w.getD (t - 16) 0 + s0 + w.getD (t - 7) 0 + s1) % 2 ^ 32])

/-- The eight working variables. -/
structure Regs where
  a : Nat
  b : Nat
  c : Nat
  d : Nat
  e : Nat
  f : Nat
  g : Nat
  h : Nat

/-- One of the 64 rounds, on a round constant and a schedule word. -/
def round (r : Regs) (kw : Nat × Nat) : Regs :=
  let S1 := rotr r.e 6 ^^^ rotr r.e 11 ^^^ rotr r.e 25
  let ch := (r.e &&& r.f) ^^^ ((r.e ^^^ (2 ^ 32 - 1)) &&& r.g)
  let t1 := (r.h + S1 + ch + kw.1 + kw.2) % 2 ^ 32
  let S0 := rotr r.a 2 ^^^ rotr r.a 13 ^^^ rotr r.a 22
  let maj := (r.a &&& r.b) ^^^ (r.a &&& r.c) ^^^ (r.b &&& r.c)
  let t2 := (S0 + maj) % 2 ^ 32
  ⟨(t1 + t2) % 2 ^ 32, r.a, r.b, r.c, (r.d + t1) % 2 ^ 32, r.e, r.f, r.g⟩

/-- The compression of one 64-byte block into the chaining value. -/
def block (h : Regs) (bs : List Nat) : Regs :=
  let w := schedule 48 (words 16 bs)
  let r := (K.zip w).foldl round h
  ⟨(h.a + r.a) % 2 ^ 32, (h.b + r.b) % 2 ^ 32, (h.c + r.c) % 2 ^ 32, (h.d + r.d) % 2 ^ 32,
   (h.e + r.e) % 2 ^ 32, (h.f + r.f) % 2 ^ 32, (h.g + r.g) % 2 ^ 32, (h.h + r.h) % 2 ^ 32⟩

/-- The compression of `n` blocks in turn. -/
def blocks : Nat → Regs → List Nat → Regs
  | 0, h, _ => h
  | n + 1, h, bs => blocks n (block h (bs.take 64)) (bs.drop 64)

/-- The four bytes of a 32-bit word, most significant first. -/
def wordBytes (x : Nat) : Bytes :=
  [Fin.ofNat (x >>> 24), Fin.ofNat (x >>> 16), Fin.ofNat (x >>> 8), Fin.ofNat x]

/-- The SHA-256 digest (32 bytes) of a message. -/
def Sum256 (msg : Bytes) : Bytes :=
  let p := pad (msg.map Fin.val)
  let r := blocks (p.length / 64) ⟨0x6a09e667, 0xbb67ae85, 0x3c6ef372, 0xa54ff53a,
    0x510e527f, 0x9b05688c, 0x1f83d9ab, 0x5be0cd19⟩ p
  [r.a, r.b, r.c, r.d, r.e, r.f, r.g, r.h].flatMap wordBytes

end sha256

/-- A value of the interface `hash.Hash`: the digest function of the
implementation and the bytes written to it since it was created. -/
structure Hash where
  sum : Bytes → Bytes
  written : Bytes

/-- The call `h.Write(b)`: the bytes are added to the running hash. -/
def Hash.Write (h : Hash) (b : Bytes) : Hash := { h with written := h.written ++ b }

/-- The call `h.Sum(b)`: appends the digest of everything written so far to `b`; the
state of the hash is not changed. -/
def Hash.Sum (h : Hash) (b : Bytes) : Bytes := b ++ h.sum h.written

/-- The constructor `sha256.New()`. -/
def sha256.New : Hash := { sum := sha256.Sum256, written := [] }

namespace hex

/-- The entry `hextable[n]`. -/
def digit (n : Nat) : Char := "0123456789abcdef".data.getD n '0'

/-- The function `hex.EncodeToString`: two lower-case digits for each byte. -/
def EncodeToString (src : Bytes) : String :=
  String.mk (src.flatMap fun b => [digit (b.val / 16), digit (b.val % 16)])

end hex

/-! ## Package proxy -/

/-- The struct `Cache`.  `Response` is a pointer and may be nil; `Created` is a
`time.Time`, whose zero value is `0` here. -/
structure Cache where
  Response : Option Response
  ResponseBody : Bytes
  Created : Nat
deriving DecidableEq, Repr

/-- The struct `Proxy`, without its mutex. -/
structure Proxy where
  HashKey : Hash
  Origin : String
  Cache : GoMap Cache

/-- The method `FlushCache`: the cache becomes a new empty map. -/
def Proxy.FlushCache (p : Proxy) : Proxy := { p with Cache := [] }

/-- The method `CleanCache`: the tag is assigned a pointer to a zero `Cache` value. -/
def Proxy.CleanCache (p : Proxy) (cacheTag : String) : Proxy :=
  let c : proxy.Cache := { Response := none, ResponseBody := [], Created := 0 }
  { p with Cache := p.Cache.set cacheTag c }

/-- The constructor `New`. -/
def New (origin : String) : Proxy :=
  { HashKey := sha256.New, Origin := origin, Cache := [] }

/-- What a handler call depends on outside the proxy: the answer of
`http.DefaultClient.Do` to a request, and the value of `time.Now()`. The client
consumes interim responses itself: what it hands over never has a `1xx` status
other than `101` (`noInterim`). Any other three-digit status, also one below
`100`, can come from the origin. -/
structure Env where
  Do : Request → Except String Response
  Now : Nat
  noInterim : ∀ (q : Request) (resp : Response),
    Do q = .ok resp → interimStatus resp.StatusCode = false

/-- The string `plainTag` built in `determineCacheTag`. -/
def plainTag (method url b : Bytes) : Bytes := method ++ str ":" ++ url ++ str ":" ++ b

/-- The method `determineCacheTag`: the key or the error, with the proxy (its hash has been
written to) and the request (its body has been read) as the call leaves them. -/
def Proxy.determineCacheTag (p : Proxy) (r : Request) : Except String String × Proxy × Request :=
  match ReadAll r.Body with
  | (.error err, rest) => (.error err, p, { r with Body := rest })
  | (.ok body, rest) =>
    let b := body
    let hk := p.HashKey.Write (plainTag r.Method r.URL b)
    let hashSum := hk.Sum []
    let cacheTag := hex.EncodeToString hashSum
    (.ok cacheTag, { p with HashKey := hk }, { r with Body := rest })

/-- The function `respondWithHeaders`: `X-Cache` is set, the header is written
with the status of the response and, unless that panicked, the headers of the
response are copied into the map of the writer and the body is written. -/
def respondWithHeaders (w : ResponseWriter) (response : Response) (body : Bytes)
    (cacheHeader _key : String) : ResponseWriter :=
  let w := { w with header := w.header.Set "X-Cache" cacheHeader }
  let w := w.WriteHeader response.StatusCode
  if w.panicked then w
  else
    let w :=
      response.Header.foldl (fun w kv => { w with header := GoMap.set w.header kv.1 kv.2 }) w
    w.Write body

/-- The path a call of `ServeHTTP` took. -/
inductive Branch where
  | nonGet
  | keyError
  | hit
  | miss
deriving DecidableEq, Repr

/-- What a call of `ServeHTTP` leaves behind: the proxy, the response writer, the
requests handed to the HTTP client, the path taken, and whether the call ended
in a run-time panic (a nil pointer dereference, or `WriteHeader` on an invalid
status code). -/
structure Outcome where
  proxy : Proxy
  w : ResponseWriter
  calls : List Request
  branch : Branch
  panicked : Bool

/-- The method `ServeHTTP`. -/
def Proxy.ServeHTTP (env : Env) (p : Proxy) (w : ResponseWriter) (r : Request) : Outcome :=
  if r.Method ≠ MethodGet then
    match env.Do r with
    | .error _ =>
      ⟨p, Error w "Error Forwarding Request" StatusInternalServerError, [r], .nonGet, false⟩
    | .ok resp =>
      match ReadAll resp.Body with
      | (.error _, _) =>
        ⟨p, Error w "Error Forwarding Request Body" StatusInternalServerError, [r], .nonGet, false⟩
      | (.ok responseBody, rest) =>
        let w1 := respondWithHeaders w { resp with Body := rest } responseBody "miss" ""
        ⟨p, w1, [r], .nonGet, w1.panicked⟩
  else
    match p.determineCacheTag r with
    | (.error _, p1, _) =>
      ⟨p1, Error w "Error determining cache key" StatusInternalServerError, [], .keyError, false⟩
    | (.ok cacheTag, p1, r1) =>
      match p1.Cache.get cacheTag with
      | some c =>
        match c.Response with
        | none => ⟨p1, w, [], .hit, true⟩
        | some response =>
          let w1 := respondWithHeaders w response c.ResponseBody "hit" cacheTag
          ⟨p1, w1, [], .hit, w1.panicked⟩
      | none =>
        match env.Do r1 with
        | .error _ =>
          ⟨p1, Error w "Error Forwarding Request" StatusInternalServerError, [r1], .miss, false⟩
        | .ok resp =>
          match ReadAll resp.Body with
          | (.error _, _) =>
            ⟨p1, Error w "Error Forwarding Request Body" StatusInternalServerError, [r1],
              .miss, false⟩
          | (.ok responseBody, rest) =>
            let resp1 := { resp with Body := rest }
            let c : proxy.Cache :=
              { Response := some resp1, ResponseBody := responseBody, Created := env.Now }
            let p2 := { p1 with Cache := p1.Cache.set cacheTag c }
            let w1 := respondWithHeaders w resp1 responseBody "miss" cacheTag
            ⟨p2, w1, [r1], .miss, w1.panicked⟩

/-! ## Concrete requests, origins and proxies -/

deriving instance DecidableEq for Except

/-- A proxy as `main` sets it up: built by `New`, its origin set to port 9090,
its cache flushed. -/
def mainProxy : Proxy := Proxy.FlushCache { New "localhost:8080" with Origin := "localhost:9090" }

/-- The request `GET /a` with an empty body, received on port 8080. -/
def getA : Request :=
  { Method := str "GET", URL := str "/a", Host := "localhost:8080", Header := [],
    Body := { data := [], fail := false } }

/-- The request `POST /a` carrying the body `q=1`. -/
def postA : Request :=
  { Method := str "POST", URL := str "/a", Host := "localhost:8080",
    Header := [("Accept", ["*/*"])], Body := { data := str "q=1", fail := false } }

/-- The request `GET http://localhost:9090/a` with an empty body, as built by
`http.NewRequest` and passed to the handler: the HTTP client can send it. -/
def getOriginA : Request :=
  { Method := str "GET", URL := str "http://localhost:9090/a", Host := "localhost:9090",
    Header := [], Body := { data := [], fail := false } }

/-- The request `GET http://example.com/a` carrying the body `q=1`. -/
def getElsewhere : Request :=
  { Method := str "GET", URL := str "http://example.com/a", Host := "example.com",
    Header := [("Accept", ["*/*"])], Body := { data := str "q=1", fail := false } }

/-- The request `GET /a:b` with an empty body. -/
def getColonInURL : Request :=
  { Method := str "GET", URL := str "/a:b", Host := "localhost:8080", Header := [],
    Body := { data := [], fail := false } }

/-- The request `GET /a` with the body `b:`. -/
def getColonInBody : Request :=
  { Method := str "GET", URL := str "/a", Host := "localhost:8080", Header := [],
    Body := { data := str "b:", fail := false } }

/-- The request `GET /b` with an empty body. -/
def getB : Request :=
  { Method := str "GET", URL := str "/b", Host := "localhost:8080", Header := [],
    Body := { data := [], fail := false } }

/-- An origin answering every request with `200` and the body `n=1`. -/
def originOne : Env :=
  { Do := fun _ => .ok { StatusCode := 200, Header := [("Content-Type", ["text/plain"])],
                         Body := { data := str "n=1", fail := false } },
    Now := 1,
    noInterim := fun _ _ h => by cases h; rfl }

/-- The same origin once reconfigured: it now answers `200` and `n=2`. -/
def originTwo : Env :=
  { Do := fun _ => .ok { StatusCode := 200, Header := [("Content-Type", ["text/plain"])],
                         Body := { data := str "n=2", fail := false } },
    Now := 2,
    noInterim := fun _ _ h => by cases h; rfl }

/-- An origin that cannot be reached: the client call returns an error. -/
def originDown : Env :=
  { Do := fun _ => .error "connection refused", Now := 3,
    noInterim := fun _ _ h => by cases h }

/-- A response of the origin whose status line reads `099`: the HTTP client
hands it over with status `99`. -/
def upstreamStatus99 : Response :=
  { StatusCode := 99, Header := [("X-Cache", ["upstream"])],
    Body := { data := [], fail := false } }

/-- An interim response `103` with an `X-Cache` header of its own, as only a
transport that does not consume interim responses would hand it over. -/
def upstreamStatus103 : Response :=
  { StatusCode := 103, Header := [("X-Cache", ["upstream"])],
    Body := { data := [], fail := false } }

/-- An origin answering every request with the status `99`. -/
def originStatus99 : Env :=
  { Do := fun _ => .ok upstreamStatus99, Now := 4,
    noInterim := fun _ _ h => by cases h; rfl }

/-- A response of the origin that carries a header `X-Cache` of its own. -/
def upstreamWithXCache : Response :=
  { StatusCode := 200,
    Header := [("Content-Type", ["application/json"]), ("X-Cache", ["upstream"])],
    Body := { data := [], fail := false } }

/-- A proxy whose hash is the identity on byte sequences: an injective digest. -/
def identityHashProxy : Proxy :=
  { HashKey := { sum := fun b => b, written := [] }, Origin := "localhost:9090", Cache := [] }

/-- The key `ServeHTTP` derives for `GET /a` with an empty body on a proxy whose
hash has not been written to: the SHA-256 of `GET:/a:` in hexadecimal. -/
def keyOfGetA : String := "6250cedc68e0ee379a094115f1db0d74fdc9e0fafe1dda182597f5b037ddb7a1"

/-- Whether the forward of a request fails: the client call returns an error, or
reading the body of the response does. -/
def forwardFails (env : Env) (q : Request) : Bool :=
  match env.Do q with
  | .error _ => true
  | .ok resp =>
    match (ReadAll resp.Body).1 with
    | .error _ => true
    | .ok _ => false

/-- The byte `:` that separates the parts of `plainTag`. -/
def colon : Byte := 58

/-! ## Lemmas on maps and on the response writer -/

theorem GoMap.get_set_self {ν : Type} (m : GoMap ν) (k : String) (v : ν) :
    (m.set k v).get k = some v := by
  simp [GoMap.get, GoMap.set, List.lookup]

theorem GoMap.get_filter_of_ne {ν : Type} (m : GoMap ν) (k j : String) (h : j ≠ k) :
    GoMap.get (m.filter fun e => e.1 != k) j = m.get j := by
  induction m with
  | nil => rfl
  | cons e m ih =>
    obtain ⟨a, v⟩ := e
    simp only [GoMap.get] at ih ⊢
    by_cases hak : a = k
    · subst hak
      have hja : (j == a) = false := by simpa using h
      have hf : List.filter (fun e => e.1 != a) ((a, v) :: m)
          = List.filter (fun e => e.1 != a) m := by simp [List.filter_cons]
      rw [hf, ih]
      simp [List.lookup, hja]
    · have hf : List.filter (fun e => e.1 != k) ((a, v) :: m)
          = (a, v) :: List.filter (fun e => e.1 != k) m := by simp [List.filter_cons, hak]
      rw [hf]
      cases hja : j == a with
      | true => simp [List.lookup, hja]
      | false => simp [List.lookup, hja, ih]

theorem GoMap.get_set_of_ne {ν : Type} (m : GoMap ν) (k j : String) (v : ν) (h : j ≠ k) :
    (m.set k v).get j = m.get j := by
  have hjk : (j == k) = false := by simpa using h
  have := GoMap.get_filter_of_ne m k j h
  simp only [GoMap.get] at this
  simp [GoMap.get, GoMap.set, List.lookup, hjk, this]

theorem GoMap.get_del_of_ne {ν : Type} (m : GoMap ν) (k j : String) (h : j ≠ k) :
    (m.del k).get j = m.get j :=
  GoMap.get_filter_of_ne m k j h

theorem WriteHeader_final (w : ResponseWriter) (code : Nat) (hw : w.wroteHeader = false)
    (hc : finalStatus code = true) :
    w.WriteHeader code = { w with final := some (code, w.header) } := by
  unfold finalStatus at hc
  have hv : validStatus code = true := by
    cases h : validStatus code <;> simp [h] at hc ⊢
  have hi : interimStatus code = false := by
    cases h : interimStatus code <;> simp [h] at hc ⊢
  simp [ResponseWriter.WriteHeader, hw, hv, hi]

theorem WriteHeader_invalid (w : ResponseWriter) (code : Nat) (hw : w.wroteHeader = false)
    (hv : validStatus code = false) :
    w.WriteHeader code = { w with panicked := true } := by
  simp [ResponseWriter.WriteHeader, hw, hv]

theorem finalStatus_500 : finalStatus StatusInternalServerError = true := by decide

theorem Error_sends (w : ResponseWriter) (msg : String) (code : Nat)
    (hw : w.wroteHeader = false) (hc : finalStatus code = true) :
    (Error w msg code).wroteHeader = true ∧ (Error w msg code).status = code ∧
    (Error w msg code).sent =
      ((w.header.Del "Content-Length").Set "Content-Type" "text/plain; charset=utf-8").Set
        "X-Content-Type-Options" "nosniff" := by
  have hwh := WriteHeader_final
    { w with header := ((w.header.Del "Content-Length").Set "Content-Type"
        "text/plain; charset=utf-8").Set "X-Content-Type-Options" "nosniff" } code hw hc
  simp only [Error, hwh]
  cases hp : w.panicked <;>
    simp [ResponseWriter.Write, ResponseWriter.wroteHeader, ResponseWriter.status,
      ResponseWriter.sent]

theorem Error_sent_get_XCache (w : ResponseWriter) (msg : String) (code : Nat)
    (hw : w.wroteHeader = false) (hc : finalStatus code = true) :
    (Error w msg code).sent.get "X-Cache" = w.header.get "X-Cache" := by
  rw [(Error_sends w msg code hw hc).2.2]
  unfold Header.Set Header.Del
  rw [GoMap.get_set_of_ne _ _ _ _ (by decide), GoMap.get_set_of_ne _ _ _ _ (by decide),
    GoMap.get_del_of_ne _ _ _ (by decide)]

/-- The loop that copies the upstream headers into the map of the writer changes
the map only: what was sent and the body stay as they are. -/
theorem copy_headers_keeps (hs : Header) (w : ResponseWriter) :
    (hs.foldl (fun w kv => { w with header := GoMap.set w.header kv.1 kv.2 }) w).final
        = w.final ∧
    (hs.foldl (fun w kv => { w with header := GoMap.set w.header kv.1 kv.2 }) w).interim
        = w.interim ∧
    (hs.foldl (fun w kv => { w with header := GoMap.set w.header kv.1 kv.2 }) w).body
        = w.body ∧
    (hs.foldl (fun w kv => { w with header := GoMap.set w.header kv.1 kv.2 }) w).panicked
        = w.panicked := by
  induction hs generalizing w with
  | nil => simp
  | cons e hs ih =>
    simp only [List.foldl_cons]
    obtain ⟨h1, h2, h3, h4⟩ := ih { w with header := GoMap.set w.header e.1 e.2 }
    exact ⟨h1, h2, h3, h4⟩

/-- A write after the final header was sent adds to the body only. -/
theorem Write_keeps_final (w : ResponseWriter) (b : Bytes) (hw : w.wroteHeader = true) :
    (w.Write b).final = w.final := by
  simp [ResponseWriter.Write, hw]

/-- On a final status code `respondWithHeaders` sends the status with the headers
the map holds once `X-Cache` is set. -/
theorem respondWithHeaders_final (w : ResponseWriter) (response : Response) (body : Bytes)
    (cacheHeader key : String) (hw : w.wroteHeader = false)
    (hc : finalStatus response.StatusCode = true) :
    (respondWithHeaders w response body cacheHeader key).final
      = some (response.StatusCode, w.header.Set "X-Cache" cacheHeader) := by
  have hwh := WriteHeader_final { w with header := w.header.Set "X-Cache" cacheHeader }
    response.StatusCode hw hc
  simp only [respondWithHeaders, hwh]
  cases hp : w.panicked
  · simp only [Bool.false_eq_true, if_false]
    rw [Write_keeps_final]
    · exact (copy_headers_keeps response.Header _).1
    · simp [ResponseWriter.wroteHeader, (copy_headers_keeps response.Header _).1]
  · simp

theorem respondWithHeaders_sends (w : ResponseWriter) (response : Response) (body : Bytes)
    (cacheHeader key : String) (hw : w.wroteHeader = false)
    (hc : finalStatus response.StatusCode = true) :
    (respondWithHeaders w response body cacheHeader key).wroteHeader = true ∧
    (respondWithHeaders w response body cacheHeader key).status = response.StatusCode ∧
    (respondWithHeaders w response body cacheHeader key).sent
      = w.header.Set "X-Cache" cacheHeader := by
  have h := respondWithHeaders_final w response body cacheHeader key hw hc
  simp [ResponseWriter.wroteHeader, ResponseWriter.status, ResponseWriter.sent, h]

/-- On a status code `WriteHeader` does not take, `respondWithHeaders` ends in
the panic: nothing is sent. -/
theorem respondWithHeaders_invalid (w : ResponseWriter) (response : Response) (body : Bytes)
    (cacheHeader key : String) (hw : w.wroteHeader = false)
    (hv : validStatus response.StatusCode = false) :
    (respondWithHeaders w response body cacheHeader key).final = none ∧
    (respondWithHeaders w response body cacheHeader key).panicked = true := by
  have hwh := WriteHeader_invalid { w with header := w.header.Set "X-Cache" cacheHeader }
    response.StatusCode hw hv
  have hf : w.final = none := by
    simpa [ResponseWriter.wroteHeader] using hw
  simp only [respondWithHeaders, hwh]
  simp [hf]

/-- Deriving a key writes to the hash and reads the body; the cache map and the
origin of the proxy are left alone. -/
theorem determineCacheTag_keeps_Cache (p : Proxy) (r : Request) :
    (p.determineCacheTag r).2.1.Cache = p.Cache ∧
    (p.determineCacheTag r).2.1.Origin = p.Origin := by
  unfold Proxy.determineCacheTag ReadAll
  by_cases hf : r.Body.fail = true <;> simp [hf]

/-! ## Lemmas on the key encoding -/

theorem hex.digit_injective :
    ∀ i j : Fin 16, hex.digit i.val = hex.digit j.val → i = j := by decide

theorem hex.encode_byte_injective (x y : Byte)
    (h1 : hex.digit (x.val / 16) = hex.digit (y.val / 16))
    (h2 : hex.digit (x.val % 16) = hex.digit (y.val % 16)) : x = y := by
  have hx := x.isLt
  have hy := y.isLt
  have e1 := hex.digit_injective ⟨x.val / 16, by omega⟩ ⟨y.val / 16, by omega⟩ h1
  have e2 := hex.digit_injective ⟨x.val % 16, by omega⟩ ⟨y.val % 16, by omega⟩ h2
  have e3 : x.val / 16 = y.val / 16 := by simpa using congrArg Fin.val e1
  have e4 : x.val % 16 = y.val % 16 := by simpa using congrArg Fin.val e2
  apply Fin.ext
  omega

/-- Two byte sequences with the same hexadecimal text are the same sequence. -/
theorem hex.EncodeToString_injective (a b : Bytes)
    (h : hex.EncodeToString a = hex.EncodeToString b) : a = b := by
  unfold hex.EncodeToString at h
  have h2 := congrArg String.data h
  simp only [] at h2
  clear h
  induction a generalizing b with
  | nil =>
    cases b with
    | nil => rfl
    | cons y ys => simp at h2
  | cons x xs ih =>
    cases b with
    | nil => simp at h2
    | cons y ys =>
      simp only [List.flatMap_cons, List.cons_append, List.nil_append, List.cons.injEq] at h2
      obtain ⟨h1, h3, h4⟩ := h2
      rw [hex.encode_byte_injective x y h1 h3, ih ys h4]

theorem str_colon : str ":" = [colon] := by decide

theorem plainTag_eq (m u b : Bytes) : plainTag m u b = m ++ colon :: (u ++ colon :: b) := by
  simp [plainTag, str_colon]

/-- A sequence is cut at its first `:` in one way only. -/
theorem append_colon_inj (l1 l2 t1 t2 : Bytes) (h1 : colon ∉ l1) (h2 : colon ∉ l2)
    (h : l1 ++ colon :: t1 = l2 ++ colon :: t2) : l1 = l2 ∧ t1 = t2 := by
  induction l1 generalizing l2 with
  | nil =>
    cases l2 with
    | nil => simpa using h
    | cons y ys =>
      simp only [List.nil_append, List.cons_append, List.cons.injEq] at h
      exact absurd (by simp [h.1]) h2
  | cons x xs ih =>
    cases l2 with
    | nil =>
      simp only [List.nil_append, List.cons_append, List.cons.injEq] at h
      exact absurd (by simp [h.1]) h1
    | cons y ys =>
      simp only [List.cons_append, List.cons.injEq] at h
      have hx : colon ∉ xs := fun hc => h1 (List.mem_cons_of_mem _ hc)
      have hy : colon ∉ ys := fun hc => h2 (List.mem_cons_of_mem _ hc)
      obtain ⟨e1, e2⟩ := ih ys hx hy h.2
      exact ⟨by rw [h.1, e1], e2⟩

/-- The hashed string determines the triple when neither method nor URL has
a `:`. -/
theorem plainTag_inj_of_no_colon (m1 u1 b1 m2 u2 b2 : Bytes)
    (hm1 : colon ∉ m1) (hu1 : colon ∉ u1) (hm2 : colon ∉ m2) (hu2 : colon ∉ u2)
    (h : plainTag m1 u1 b1 = plainTag m2 u2 b2) : m1 = m2 ∧ u1 = u2 ∧ b1 = b2 := by
  rw [plainTag_eq, plainTag_eq] at h
  obtain ⟨e1, e2⟩ := append_colon_inj m1 m2 _ _ hm1 hm2 h
  obtain ⟨e3, e4⟩ := append_colon_inj u1 u2 _ _ hu1 hu2 e2
  exact ⟨e1, e3, e4⟩

/-- The hashed string determines the third part of the triple when the two other
parts are known to agree. -/
theorem plainTag_inj_of_two_equal (m1 u1 b1 m2 u2 b2 : Bytes)
    (hagree : (m1 = m2 ∧ u1 = u2) ∨ (m1 = m2 ∧ b1 = b2) ∨ (u1 = u2 ∧ b1 = b2))
    (h : plainTag m1 u1 b1 = plainTag m2 u2 b2) : m1 = m2 ∧ u1 = u2 ∧ b1 = b2 := by
  rw [plainTag_eq, plainTag_eq] at h
  rcases hagree with ⟨e1, e2⟩ | ⟨e1, e2⟩ | ⟨e1, e2⟩
  · subst e1 e2
    have := List.append_cancel_left h
    simp only [List.cons.injEq, true_and] at this
    have h3 := List.append_cancel_left this
    simp only [List.cons.injEq, true_and] at h3
    exact ⟨rfl, rfl, h3⟩
  · subst e1 e2
    have := List.append_cancel_left h
    simp only [List.cons.injEq, true_and] at this
    exact ⟨rfl, List.append_cancel_right this, rfl⟩
  · subst e1 e2
    exact ⟨List.append_cancel_right h, rfl, rfl⟩

/-- The key `determineCacheTag` returns when the body can be read. -/
theorem determineCacheTag_ok (p : Proxy) (r : Request) (hb : r.Body.fail = false) :
    (p.determineCacheTag r).1 =
      .ok (hex.EncodeToString (p.HashKey.sum (p.HashKey.written ++
        plainTag r.Method r.URL r.Body.data))) := by
  simp [Proxy.determineCacheTag, ReadAll, hb, Hash.Write, Hash.Sum]

/-! ## The claims -/

/-- C4. Non-GET bypass: for every proxy state, whatever its cache holds, and every
request whose method is not GET, `ServeHTTP` takes the non-GET path (never the hit
branch), the response it sends does not carry `X-Cache: hit`, and the cache map
is exactly what it was, whether the forward succeeds or fails. The writer is the
one a handler receives: no header sent yet, no `X-Cache` set. -/
theorem ServeHTTP_non_get_bypasses_cache (env : Env) (p : Proxy) (w : ResponseWriter)
    (r : Request) (hm : r.Method ≠ MethodGet) (hw : w.wroteHeader = false)
    (hx : w.header.get "X-Cache" = none) :
    (p.ServeHTTP env w r).branch = .nonGet ∧
    (p.ServeHTTP env w r).branch ≠ .hit ∧
    (p.ServeHTTP env w r).w.sent.get "X-Cache" ≠ some ["hit"] ∧
    (p.ServeHTTP env w r).proxy.Cache = p.Cache := by
  unfold Proxy.ServeHTTP
  rw [if_pos hm]
  cases hdo : env.Do r with
  | error e =>
    simp only []
    refine ⟨by trivial, by decide, ?_, by trivial⟩
    rw [Error_sent_get_XCache _ _ _ hw finalStatus_500, hx]
    simp
  | ok resp =>
    simp only []
    cases hrd : ReadAll resp.Body with
    | mk res rest =>
      cases res with
      | error e =>
        simp only []
        refine ⟨by trivial, by decide, ?_, by trivial⟩
        rw [Error_sent_get_XCache _ _ _ hw finalStatus_500, hx]
        simp
      | ok responseBody =>
        simp only []
        refine ⟨by trivial, by decide, ?_, by trivial⟩
        have hni := env.noInterim r resp hdo
        cases hv : validStatus resp.StatusCode with
        | false =>
          have h := (respondWithHeaders_invalid w { resp with Body := rest } responseBody
            "miss" "" hw hv).1
          simp [ResponseWriter.sent, h, GoMap.get]
        | true =>
          have hc : finalStatus resp.StatusCode = true := by simp [finalStatus, hv, hni]
          rw [(respondWithHeaders_sends w { resp with Body := rest } responseBody
            "miss" "" hw hc).2.2]
          unfold Header.Set
          rw [GoMap.get_set_self]
          decide

/-- A run of C4: a POST for the URL and body that `GET /a` was cached under. -/
theorem ServeHTTP_non_get_bypasses_cache_witness :
    postA.Method ≠ MethodGet ∧
    ((mainProxy.ServeHTTP originOne ResponseWriter.fresh getA).proxy.ServeHTTP originTwo
        ResponseWriter.fresh postA).branch = .nonGet ∧
    ((mainProxy.ServeHTTP originOne ResponseWriter.fresh getA).proxy.ServeHTTP originTwo
        ResponseWriter.fresh postA).proxy.Cache =
      (mainProxy.ServeHTTP originOne ResponseWriter.fresh getA).proxy.Cache :=
  have h := ServeHTTP_non_get_bypasses_cache originTwo
    (mainProxy.ServeHTTP originOne ResponseWriter.fresh getA).proxy ResponseWriter.fresh postA
    (by decide) rfl rfl
  ⟨by decide, h.1, h.2.2.2⟩

/-- C6, as stated, fails: for the upstream response with status `99`, which the
HTTP client hands over when the status line of the origin reads `099`,
`respondWithHeaders` ends in the panic of `WriteHeader` and sends no response, so
no `X-Cache: miss` reaches the client, neither from `respondWithHeaders` nor from
the `ServeHTTP` that called it. For the interim status `103` the response sent
at the end carries the upstream value of `X-Cache`: the copy of the upstream
headers comes before the final header is written. -/
theorem respondWithHeaders_invalid_status_sends_nothing :
    ResponseWriter.fresh.wroteHeader = false ∧
    (respondWithHeaders ResponseWriter.fresh upstreamStatus99 [] "miss" keyOfGetA).panicked
      = true ∧
    (respondWithHeaders ResponseWriter.fresh upstreamStatus99 [] "miss" keyOfGetA).wroteHeader
      = false ∧
    (respondWithHeaders ResponseWriter.fresh upstreamStatus99 [] "miss" keyOfGetA).sent.get
      "X-Cache" ≠ some ["miss"] ∧
    (mainProxy.ServeHTTP originStatus99 ResponseWriter.fresh getOriginA).panicked = true ∧
    (mainProxy.ServeHTTP originStatus99 ResponseWriter.fresh getOriginA).w.sent.get "X-Cache"
      ≠ some ["miss"] ∧
    (respondWithHeaders ResponseWriter.fresh upstreamStatus103 [] "miss" keyOfGetA).sent.get
      "X-Cache" = some ["upstream"] := by
  decide

/-- C6, amended. X-Cache precedence: for every upstream or cached response whose
status is a final status code (`101`, or `200` to `999`), also one that carries an
`X-Cache` header itself, the response `respondWithHeaders` sends to the client
(status line and headers, sent by `WriteHeader`) has as its `X-Cache` header
exactly the single value `cacheHeader`, and the status of the response. -/
theorem respondWithHeaders_XCache_is_cache_decision (w : ResponseWriter) (response : Response)
    (body : Bytes) (cacheHeader key : String) (hw : w.wroteHeader = false)
    (hc : finalStatus response.StatusCode = true) :
    (respondWithHeaders w response body cacheHeader key).wroteHeader = true ∧
    (respondWithHeaders w response body cacheHeader key).sent.get "X-Cache"
      = some [cacheHeader] ∧
    (respondWithHeaders w response body cacheHeader key).status = response.StatusCode := by
  obtain ⟨h1, h2, h3⟩ := respondWithHeaders_sends w response body cacheHeader key hw hc
  refine ⟨h1, ?_, h2⟩
  rw [h3]
  exact GoMap.get_set_self _ _ _

/-- A run of the amended C6 on an upstream response that has `X-Cache: upstream`. -/
theorem respondWithHeaders_XCache_is_cache_decision_witness :
    upstreamWithXCache.Header.get "X-Cache" = some ["upstream"] ∧
    finalStatus upstreamWithXCache.StatusCode = true ∧
    (respondWithHeaders ResponseWriter.fresh upstreamWithXCache (str "n=1") "hit"
        keyOfGetA).sent.get "X-Cache" = some ["hit"] :=
  ⟨by decide, by decide,
   (respondWithHeaders_XCache_is_cache_decision ResponseWriter.fresh upstreamWithXCache
      (str "n=1") "hit" keyOfGetA rfl (by decide)).2.1⟩

/-- C7. Failed forwards are never cached: for every proxy state and every GET
request whose key is derived and is not in the cache, if the forward fails (the
client call returns an error, or reading the body of the response does),
`ServeHTTP` takes the miss branch, answers with status 500, and the cache map
after the call is the cache map before it. -/
theorem ServeHTTP_failed_forward_not_cached (env : Env) (p p1 : Proxy) (w : ResponseWriter)
    (r r1 : Request) (k : String) (hm : r.Method = MethodGet) (hw : w.wroteHeader = false)
    (hk : p.determineCacheTag r = (.ok k, p1, r1)) (hmiss : p.Cache.get k = none)
    (hfail : forwardFails env r1 = true) :
    (p.ServeHTTP env w r).branch = .miss ∧
    (p.ServeHTTP env w r).calls = [r1] ∧
    (p.ServeHTTP env w r).w.wroteHeader = true ∧
    (p.ServeHTTP env w r).w.status = 500 ∧
    (p.ServeHTTP env w r).proxy.Cache = p.Cache := by
  have hc : p1.Cache = p.Cache := by
    have := (determineCacheTag_keeps_Cache p r).1
    rw [hk] at this
    exact this
  unfold Proxy.ServeHTTP
  rw [if_neg (by simpa using hm)]
  simp only [hk, hc, hmiss]
  unfold forwardFails at hfail
  cases hdo : env.Do r1 with
  | error e =>
    simp only []
    obtain ⟨h1, h2, _⟩ :=
      Error_sends w "Error Forwarding Request" StatusInternalServerError hw finalStatus_500
    exact ⟨by trivial, by trivial, h1, h2, hc⟩
  | ok resp =>
    rw [hdo] at hfail
    simp only [] at hfail ⊢
    cases hrd : ReadAll resp.Body with
    | mk res rest =>
      rw [hrd] at hfail
      cases res with
      | error e =>
        simp only []
        obtain ⟨h1, h2, _⟩ :=
          Error_sends w "Error Forwarding Request Body" StatusInternalServerError hw
            finalStatus_500
        exact ⟨by trivial, by trivial, h1, h2, hc⟩
      | ok responseBody => simp at hfail

/-- A run of C7: `GET /a` on the proxy of `main` while the origin is down. -/
theorem ServeHTTP_failed_forward_not_cached_witness :
    mainProxy.Cache.get keyOfGetA = none ∧ forwardFails originDown getA = true ∧
    (mainProxy.ServeHTTP originDown ResponseWriter.fresh getA).w.status = 500 ∧
    (mainProxy.ServeHTTP originDown ResponseWriter.fresh getA).proxy.Cache = mainProxy.Cache :=
  have h := ServeHTTP_failed_forward_not_cached originDown mainProxy
    (mainProxy.determineCacheTag getA).2.1 ResponseWriter.fresh getA getA keyOfGetA
    (by decide) rfl (by rfl) (by decide) (by decide)
  ⟨by decide, by decide, h.2.2.2.1, h.2.2.2.2⟩

/-- C8. Flush empties the store: for every proxy state, after `FlushCache` the
cache map is empty, so every key is absent and, for every request, writer and
origin, the next `ServeHTTP` does not take the hit branch; the origin and the
hash of the proxy are what they were. -/
theorem FlushCache_empties_store (p : Proxy) :
    p.FlushCache.Cache = [] ∧
    (∀ k : String, p.FlushCache.Cache.get k = none) ∧
    p.FlushCache.Origin = p.Origin ∧
    p.FlushCache.HashKey = p.HashKey ∧
    (∀ (env : Env) (w : ResponseWriter) (r : Request),
      (p.FlushCache.ServeHTTP env w r).branch ≠ .hit) := by
  refine ⟨rfl, fun _ => rfl, rfl, rfl, ?_⟩
  intro env w r
  have hc := (determineCacheTag_keeps_Cache p.FlushCache r).1
  unfold Proxy.ServeHTTP
  split
  · split
    · simp
    · split <;> simp
  · split
    · simp
    · rename_i cacheTag p1 r1 heq
      rw [heq] at hc
      have hnone : p1.Cache.get cacheTag = none := by
        simp only [] at hc
        rw [hc]
        rfl
      simp only [hnone]
      split
      · simp
      · split <;> simp

/-- C1. Key derivation on one proxy is not repeatable: on the proxy `New` builds,
the first `determineCacheTag` for `GET /a` with an empty body returns the SHA-256
of `GET:/a:`, and the next call for the same method, URL and body returns the
SHA-256 of `GET:/a:GET:/a:`, because the hash is written to and never reset. -/
theorem determineCacheTag_second_call_other_key :
    ((New "localhost:9090").determineCacheTag getA).1 = .ok keyOfGetA ∧
    (((New "localhost:9090").determineCacheTag getA).2.1.determineCacheTag getA).1
      = .ok "036442febed8a0128326c50e2cf92e59c51a29480206d24cee9d35e295197d13" ∧
    (((New "localhost:9090").determineCacheTag getA).2.1.determineCacheTag getA).1
      ≠ ((New "localhost:9090").determineCacheTag getA).1 := by
  decide

/-- C2. A repeated GET is not served from the cache: on the proxy `New` builds, a
first `GET http://localhost:9090/a` whose forward succeeds with `200` and `n=1`
is a miss and is stored; the identical GET that follows is a miss again, is
handed to the HTTP client, and is answered with what the origin returns now
(`n=2`), not with the stored response. -/
theorem ServeHTTP_identical_get_misses_again :
    ((New "localhost:9090").ServeHTTP originOne ResponseWriter.fresh getOriginA).branch
      = .miss ∧
    ((New "localhost:9090").ServeHTTP originOne ResponseWriter.fresh getOriginA).w.sent.get
      "X-Cache" = some ["miss"] ∧
    ((New "localhost:9090").ServeHTTP originOne ResponseWriter.fresh getOriginA).w.status
      = 200 ∧
    ((New "localhost:9090").ServeHTTP originOne ResponseWriter.fresh getOriginA).w.body
      = str "n=1" ∧
    (((New "localhost:9090").ServeHTTP originOne ResponseWriter.fresh getOriginA).proxy.ServeHTTP
      originTwo ResponseWriter.fresh getOriginA).branch = .miss ∧
    (((New "localhost:9090").ServeHTTP originOne ResponseWriter.fresh getOriginA).proxy.ServeHTTP
      originTwo ResponseWriter.fresh getOriginA).calls = [getOriginA] ∧
    (((New "localhost:9090").ServeHTTP originOne ResponseWriter.fresh getOriginA).proxy.ServeHTTP
      originTwo ResponseWriter.fresh getOriginA).w.sent.get "X-Cache" = some ["miss"] ∧
    (((New "localhost:9090").ServeHTTP originOne ResponseWriter.fresh getOriginA).proxy.ServeHTTP
      originTwo ResponseWriter.fresh getOriginA).w.body = str "n=2" := by
  decide

/-- C3. `CleanCache` does not remove the entry: after `CleanCache` of the key of
`GET /a` the cache map holds that key with a zero `Cache` value (nil response), and
the `ServeHTTP` for `GET /a` that follows finds it, takes the hit branch without
contacting the origin, and ends in a nil pointer dereference: nothing is sent. -/
theorem CleanCache_leaves_entry_that_hits :
    ((New "localhost:9090").CleanCache keyOfGetA).Cache.get keyOfGetA
      = some { Response := none, ResponseBody := [], Created := 0 } ∧
    (((New "localhost:9090").CleanCache keyOfGetA).determineCacheTag getA).1 = .ok keyOfGetA ∧
    (((New "localhost:9090").CleanCache keyOfGetA).ServeHTTP originOne
      ResponseWriter.fresh getA).branch = .hit ∧
    (((New "localhost:9090").CleanCache keyOfGetA).ServeHTTP originOne
      ResponseWriter.fresh getA).calls = [] ∧
    (((New "localhost:9090").CleanCache keyOfGetA).ServeHTTP originOne
      ResponseWriter.fresh getA).panicked = true ∧
    (((New "localhost:9090").CleanCache keyOfGetA).ServeHTTP originOne
      ResponseWriter.fresh getA).w.wroteHeader = false := by
  decide

/-- C5. Upstream headers are not passed through: for an upstream response with
`Content-Type: application/json`, the headers `respondWithHeaders` has in effect
when it calls `WriteHeader` are `X-Cache` alone; the upstream headers are copied
into the map of the writer after that and are not sent. -/
theorem respondWithHeaders_sends_only_XCache :
    upstreamWithXCache.Header.get "Content-Type" = some ["application/json"] ∧
    (respondWithHeaders ResponseWriter.fresh upstreamWithXCache (str "n=1") "miss"
        keyOfGetA).sent = [("X-Cache", ["miss"])] ∧
    (respondWithHeaders ResponseWriter.fresh upstreamWithXCache (str "n=1") "miss"
        keyOfGetA).sent.get "Content-Type" = none ∧
    (respondWithHeaders ResponseWriter.fresh upstreamWithXCache (str "n=1") "miss"
        keyOfGetA).header.get "Content-Type" = some ["application/json"] := by
  decide

/-- C9, as stated, fails: `GET /a:b` with an empty body and `GET /a` with the body
`b:` differ in URL and body, yet both are hashed as `GET:/a:b:`, so they get the
same key under an injective digest (the identity) and under SHA-256 alike. -/
theorem plainTag_collision :
    Function.Injective identityHashProxy.HashKey.sum ∧
    (getColonInURL.Method, getColonInURL.URL, getColonInURL.Body.data)
      ≠ (getColonInBody.Method, getColonInBody.URL, getColonInBody.Body.data) ∧
    plainTag getColonInURL.Method getColonInURL.URL getColonInURL.Body.data
      = plainTag getColonInBody.Method getColonInBody.URL getColonInBody.Body.data ∧
    (identityHashProxy.determineCacheTag getColonInURL).1
      = (identityHashProxy.determineCacheTag getColonInBody).1 ∧
    ((New "localhost:9090").determineCacheTag getColonInURL).1
      = ((New "localhost:9090").determineCacheTag getColonInBody).1 :=
  ⟨fun _ _ h => h, by decide, by decide, by decide, by decide⟩

/-- C9, amended. Key sensitivity: taking the digest of the hash as injective, for
every proxy state and every two requests with readable bodies whose (method, URL,
body) triples differ, `determineCacheTag` returns a key for each and the two keys
differ, provided neither methods nor URLs contain `:`, or the two triples agree
on two of their three parts. -/
theorem determineCacheTag_sensitive (p : Proxy) (r1 r2 : Request)
    (hinj : Function.Injective p.HashKey.sum)
    (hb1 : r1.Body.fail = false) (hb2 : r2.Body.fail = false)
    (hdiff : (r1.Method, r1.URL, r1.Body.data) ≠ (r2.Method, r2.URL, r2.Body.data))
    (hsep : (colon ∉ r1.Method ∧ colon ∉ r1.URL ∧ colon ∉ r2.Method ∧ colon ∉ r2.URL) ∨
      (r1.Method = r2.Method ∧ r1.URL = r2.URL) ∨
      (r1.Method = r2.Method ∧ r1.Body.data = r2.Body.data) ∨
      (r1.URL = r2.URL ∧ r1.Body.data = r2.Body.data)) :
    ∃ k1 k2 : String, (p.determineCacheTag r1).1 = .ok k1 ∧
      (p.determineCacheTag r2).1 = .ok k2 ∧ k1 ≠ k2 := by
  refine ⟨_, _, determineCacheTag_ok p r1 hb1, determineCacheTag_ok p r2 hb2, ?_⟩
  intro hk
  have htag := List.append_cancel_left (hinj (hex.EncodeToString_injective _ _ hk))
  have hall : r1.Method = r2.Method ∧ r1.URL = r2.URL ∧ r1.Body.data = r2.Body.data := by
    rcases hsep with ⟨h1, h2, h3, h4⟩ | hagree
    · exact plainTag_inj_of_no_colon _ _ _ _ _ _ h1 h2 h3 h4 htag
    · exact plainTag_inj_of_two_equal _ _ _ _ _ _ hagree htag
  exact hdiff (by rw [hall.1, hall.2.1, hall.2.2])

/-- A run of the amended C9: `GET /a` and `GET /b` get different keys. -/
theorem determineCacheTag_sensitive_witness :
    (getA.Method, getA.URL, getA.Body.data) ≠ (getB.Method, getB.URL, getB.Body.data) ∧
    ∃ k1 k2 : String, (identityHashProxy.determineCacheTag getA).1 = .ok k1 ∧
      (identityHashProxy.determineCacheTag getB).1 = .ok k2 ∧ k1 ≠ k2 :=
  ⟨by decide,
   determineCacheTag_sensitive identityHashProxy getA getB (fun _ _ h => h) rfl rfl
     (by decide) (Or.inl (by decide))⟩

/-- C10. The forwarded request is not addressed to the origin and, on a GET miss,
has lost its body: on the proxy of `main` (origin `localhost:9090`), the request
handed to the HTTP client for `GET http://example.com/a` with body `q=1` names
the host `example.com` and has an empty body; the `POST /a` received on
`localhost:8080` is handed over as received, host `localhost:8080`. -/
theorem ServeHTTP_forwards_received_request :
    mainProxy.Origin = "localhost:9090" ∧
    getElsewhere.Body.data = str "q=1" ∧
    (mainProxy.ServeHTTP originOne ResponseWriter.fresh getElsewhere).branch = .miss ∧
    (mainProxy.ServeHTTP originOne ResponseWriter.fresh getElsewhere).calls
      = [{ getElsewhere with Body := { data := [], fail := false } }] ∧
    (mainProxy.ServeHTTP originOne ResponseWriter.fresh getElsewhere).calls.map
        (fun q => (q.Host, q.Body.data)) = [("example.com", [])] ∧
    (mainProxy.ServeHTTP originDown ResponseWriter.fresh postA).calls = [postA] ∧
    (mainProxy.ServeHTTP originDown ResponseWriter.fresh postA).calls.map
        (fun q => (q.Host, q.Body.data)) = [("localhost:8080", str "q=1")] := by
  decide

end proxy
